import Mathlib

/-!
Shallow embedding of src/data/get_data.py (recession-mrf).

The script fetches FRED series, builds a predictor table with two derived
spread columns, fetches the FRED-MD panel CSV, and merges the two tables on
a common monthly time index (create_mrf_dataset), emitting a position map.

Modelling conventions:
  * pandas timestamps are encoded at day resolution as a single natural
    number: a date in month m (months counted from year 0) on day d
    (1 <= d <= 31) is `m * 32 + d`.  The order on Nat is then exactly the
    chronological order.  The pandas month-end resample label of month m
    is represented by `m * 32 + 31` (monthEnd m).
  * pandas cell values (float with NaN) are `Option ℚ`; `none` is NaN.
    Arithmetic on cells propagates NaN like pandas does.
  * a pandas DataFrame is a column-name list plus rows of (date, cells).
  * the external world (os.getenv after load_dotenv, fredapi fetches, the
    FRED-MD CSV download) is passed in as explicit oracle arguments.
  * fallible pandas operations (column selection KeyError, to_datetime
    parse failure, resample on a non-datetime index) return Except.
-/

set_option autoImplicit false

namespace RecessionMRF

/-- A pandas cell: a float value or NaN (`none`). -/
abbrev Cell : Type := Option ℚ

/-- Subtraction of two pandas cells: NaN-propagating, as in
`df['treasury_10y'] - df['treasury_3m']`. -/
def subCell : Cell → Cell → Cell
  | some a, some b => some (a - b)
  | _, _ => none

/-- Encode a calendar date: month `m` (absolute month count), day `d`.
Chronological order coincides with the Nat order because days are < 32. -/
def mkDate (m d : Nat) : Nat := m * 32 + d

/-- The month of an encoded date. -/
def monthOf (d : Nat) : Nat := d / 32

/-- The pandas `resample('M')` month-end label of month `m` (the last day
of the month; we use the day slot 31, which is at or after every real day
of the month and before every day of the next month). -/
def monthEnd (m : Nat) : Nat := m * 32 + 31

/-- Date for year `y`, month `m` (1-12), day `d`. -/
def ymd (y m d : Nat) : Nat := mkDate (y * 12 + (m - 1)) d

/-- A pandas DataFrame with a (already coerced) DatetimeIndex: column
names plus rows of (date, cells).  Row order is the index order. -/
structure DataFrame where
  cols : List String
  rows : List (Nat × List Cell)
deriving DecidableEq, Repr

/-- Well-formedness: every row has exactly one cell per column. -/
def DataFrame.WF (df : DataFrame) : Prop :=
  ∀ r ∈ df.rows, (Prod.snd r).length = df.cols.length

/-- An index entry of a raw (possibly not yet datetime-coerced) pandas
index: either a timestamp or a raw string still to be parsed. -/
inductive IdxVal where
  | dt (d : Nat)
  | raw (s : String)
deriving DecidableEq, Repr

/-- A pandas DataFrame whose index may not yet be a DatetimeIndex. -/
structure RawFrame where
  cols : List String
  rows : List (IdxVal × List Cell)
deriving DecidableEq, Repr

/-- View a datetime-indexed frame as a raw frame. -/
def DataFrame.toRaw (df : DataFrame) : RawFrame :=
  ⟨df.cols, df.rows.map (fun r => (IdxVal.dt r.1, r.2))⟩

/-- Split a character list at the '-' separators. -/
def splitDash : List Char → List (List Char)
  | [] => [[]]
  | c :: cs =>
    match splitDash cs with
    | [] => []
    | g :: gs => if c = '-' then [] :: g :: gs else (c :: g) :: gs

/-- Read a nonempty all-digit character group as a number. -/
def digitsToNat? (l : List Char) : Option Nat :=
  if l = [] then none
  else if l.all (fun c => c.isDigit) then
    some (l.foldl (fun a c => a * 10 + (c.toNat - 48)) 0)
  else none

/-- `pd.to_datetime` on one string: parses "YYYY-MM-DD" or "YYYY-MM";
`none` models the `to_datetime` parse exception. -/
def parseDate (s : String) : Option Nat :=
  match splitDash s.data with
  | [y, m, d] =>
    match digitsToNat? y, digitsToNat? m, digitsToNat? d with
    | some yn, some mn, some dn =>
      if 1 ≤ mn ∧ mn ≤ 12 ∧ 1 ≤ dn ∧ dn ≤ 31 then some (ymd yn mn dn) else none
    | _, _, _ => none
  | [y, m] =>
    match digitsToNat? y, digitsToNat? m with
    | some yn, some mn =>
      if 1 ≤ mn ∧ mn ≤ 12 then some (ymd yn mn 1) else none
    | _, _ => none
  | _ => none

/-- `pd.to_datetime` on one index entry. -/
def IdxVal.toDate : IdxVal → Option Nat
  | .dt d => some d
  | .raw s => parseDate s

/-- `isinstance(df.index, pd.DatetimeIndex)`. -/
def RawFrame.isDatetimeIndex (rf : RawFrame) : Bool :=
  rf.rows.all (fun r => match r.1 with | .dt _ => true | .raw _ => false)

/-- One raw index entry viewed as a dated row, if its index parses. -/
def idxEntryDate (r : IdxVal × List Cell) : Option (Nat × List Cell) :=
  (r.1.toDate).map (fun d => (d, r.2))

/-- The datetime view of a raw frame (entries whose index parses). -/
def RawFrame.toFrame (rf : RawFrame) : DataFrame :=
  ⟨rf.cols, rf.rows.filterMap idxEntryDate⟩

/-- Index of the first column with the given name (pandas label lookup). -/
def colIdx? (n : String) : List String → Option Nat
  | [] => none
  | c :: cs => if c = n then some 0 else (colIdx? n cs).map (· + 1)

/-- The value of column `n` in a row of `df` (NaN if the column is
absent or the row too short). -/
def getVal (df : DataFrame) (n : String) (cells : List Cell) : Cell :=
  match colIdx? n df.cols with
  | some i => cells.getD i none
  | none => none

/-- The cells of the row at date `d`, if present. -/
def lookupRow (df : DataFrame) (d : Nat) : Option (List Cell) :=
  (df.rows.find? (fun r => r.1 == d)).map (fun r => r.2)

/-- Row at date `d`, or an all-NaN row (pandas outer-join fill). -/
def rowAt (df : DataFrame) (d : Nat) : List Cell :=
  (lookupRow df d).getD (List.replicate df.cols.length none)

/-- Insert a date into a sorted date list, keeping it sorted and
duplicate-free. -/
def insertDate (d : Nat) : List Nat → List Nat
  | [] => [d]
  | y :: ys =>
    if d < y then d :: y :: ys
    else if d = y then y :: ys
    else y :: insertDate d ys

/-- Sorted union of two sorted date lists (the index union built by a
pandas outer join), deduplicating common dates. -/
def mergeDates (a b : List Nat) : List Nat := a.foldr insertDate b

/-- `pd.concat([a, b], axis=1)`: outer join on the union of the two
indices, filling NaN where a frame lacks a date. -/
def concat2 (a b : DataFrame) : DataFrame :=
  ⟨a.cols ++ b.cols,
   (mergeDates (a.rows.map (fun r => r.1)) (b.rows.map (fun r => r.1))).map
     (fun d => (d, rowAt a d ++ rowAt b d))⟩

/-- Look up several column labels at once; `none` as soon as one is
missing. -/
def colIdxList? (names : List String) (cols : List String) : Option (List Nat) :=
  match names with
  | [] => some []
  | n :: ns =>
    match colIdx? n cols, colIdxList? ns cols with
    | some i, some is => some (i :: is)
    | _, _ => none

/-- `df[[n1, ..., nk]]`: select columns by name; KeyError if one is
missing. -/
def select (names : List String) (df : DataFrame) : Except String DataFrame :=
  match colIdxList? names df.cols with
  | some idxs =>
    .ok ⟨names, df.rows.map (fun r => (r.1, idxs.map (fun i => r.2.getD i none)))⟩
  | none => .error ("KeyError: column not found")

/-- Remove the cells sitting under columns named `n`. -/
def dropColCells (cols : List String) (n : String) (cells : List Cell) : List Cell :=
  (cols.zip cells).filterMap (fun p => if p.1 = n then none else some p.2)

/-- `df.drop(columns=[n], errors='ignore')`: drops every column labelled
`n`; a frame without such a column is returned unchanged. -/
def dropCol (n : String) (df : DataFrame) : DataFrame :=
  if n ∈ df.cols then
    ⟨df.cols.filter (fun c => c ≠ n),
     df.rows.map (fun r => (r.1, dropColCells df.cols n r.2))⟩
  else df

/-- `df.dropna()`: keep only the rows with no NaN cell. -/
def dropna (df : DataFrame) : DataFrame :=
  ⟨df.cols, df.rows.filter (fun r => r.2.all (fun c => c.isSome))⟩

/-- Aggregate two cells of the same month and column the way
`Resampler.last()` does: the later value wins unless it is NaN
(skipna semantics). -/
def lastCell (a b : Cell) : Cell :=
  match b with
  | some v => some v
  | none => a

/-- Aggregate two same-month rows column by column with `lastCell`. -/
def combineRows : List Cell → List Cell → List Cell
  | [], bs => bs
  | a :: as, [] => a :: as
  | a :: as, b :: bs => lastCell a b :: combineRows as bs

/-- Walk the remaining rows carrying the per-column aggregate `acc` of
the current month's rows seen so far (whose latest date is `d`): a row
of the same month is folded into `acc` with `combineRows`; a new month
emits the finished month-end row and starts over. -/
def resampleGo (d : Nat) (acc : List Cell) :
    List (Nat × List Cell) → List (Nat × List Cell)
  | [] => [(monthEnd (monthOf d), acc)]
  | (d₂, r₂) :: rest =>
    if monthOf d = monthOf d₂ then resampleGo d₂ (combineRows acc r₂) rest
    else (monthEnd (monthOf d), acc) :: resampleGo d₂ r₂ rest

/-- Collapse each run of consecutive rows sharing a month into one row
labelled with the month end, in which each column holds the month's last
non-null value (`resample('M').last()` skips NaN per column, it does not
keep the literal last row). -/
def resampleRows : List (Nat × List Cell) → List (Nat × List Cell)
  | [] => []
  | (d, r) :: rest => resampleGo d r rest

/-- Insert an all-NaN row for every month missing between two kept rows
(pandas `resample` emits every month between the index minimum and
maximum). -/
def gapFill (n : Nat) : List (Nat × List Cell) → List (Nat × List Cell)
  | [] => []
  | [x] => [x]
  | x :: y :: rest =>
    x :: (((List.range' (monthOf x.1 + 1) (monthOf y.1 - monthOf x.1 - 1)).map
      (fun m => (monthEnd m, List.replicate n (none : Cell)))) ++ gapFill n (y :: rest))

/-- `df.resample('M').last()`: one row per calendar month between the
index minimum and maximum, labelled with the month end, holding per
column the month's last non-null observation (all-NaN for months with
no observation). -/
def resampleM (df : DataFrame) : DataFrame :=
  ⟨df.cols, gapFill df.cols.length (resampleRows df.rows)⟩

/-- `df.loc[start:stop]` on a monotonic DatetimeIndex: the rows whose
date lies in the inclusive range [start, stop]. -/
def trimTo (start stop : Nat) (df : DataFrame) : DataFrame :=
  ⟨df.cols, df.rows.filter (fun r => decide (start ≤ r.1) && decide (r.1 ≤ stop))⟩

/-- `df.index.min()` (`none` on an empty index, where pandas yields NaT). -/
def minDate (df : DataFrame) : Option Nat :=
  df.rows.foldl (fun acc r => match acc with
    | none => some r.1
    | some m => some (Nat.min m r.1)) none

/-- `df.index.max()` (`none` on an empty index, where pandas yields NaT). -/
def maxDate (df : DataFrame) : Option Nat :=
  df.rows.foldl (fun acc r => match acc with
    | none => some r.1
    | some m => some (Nat.max m r.1)) none

/-- The last non-null observation of column `j` among the rows of month
`m` (NaN when the month has no non-null value in that column): the value
`resample('M').last()` must produce for that month and column.  Later
rows take precedence; a NaN in a later row falls back to earlier rows of
the same month. -/
def lastObsCell (m j : Nat) : List (Nat × List Cell) → Cell
  | [] => none
  | (d, r) :: rest =>
    match lastObsCell m j rest with
    | some v => some v
    | none => if monthOf d = m then r.getD j none else none

/-- The index months are in chronological order (the time-series
invariant of the data model: timestamps increase along the index). -/
def monthsOrdered : List (Nat × List Cell) → Bool
  | [] => true
  | [_] => true
  | a :: b :: rest =>
    decide (monthOf a.1 ≤ monthOf b.1) && monthsOrdered (b :: rest)

/-- Month `m` has at least one observation among the rows. -/
def monthHas (m : Nat) (l : List (Nat × List Cell)) : Bool :=
  l.any (fun y => monthOf y.1 == m)

/-! ### The program's functions (src/data/get_data.py) -/

/-- The user-actionable message of the ValueError raised by
`get_fred_api_key` when no key is configured (condensed from the
multi-line message of the source). -/
def fredKeyMsg : String :=
  "FRED API key not found! 1. Get your free API key at fred.stlouisfed.org 2. Copy .env.example to .env 3. Edit .env and add your key: FRED_API_KEY=your_key_here"

/-- `get_fred_api_key`: reads FRED_API_KEY from the environment (the
`env` oracle is the environment as visible after `load_dotenv()`); a
missing value, or any value that is falsy in Python (`if not api_key:`,
i.e. the empty string), raises the configuration ValueError. -/
def get_fred_api_key (env : String → Option String) : Except String String :=
  match env ("FRED_API_KEY") with
  | none => .error fredKeyMsg
  | some k => if k.isEmpty then .error fredKeyMsg else .ok k

/-- The `series` dict of `get_recession_predictors`: FRED id → column
name, in the source's insertion order. -/
def seriesList : List (String × String) :=
  [("USREC", "recession_indicator"),
   ("INDPRO", "industrial_production"),
   ("PAYEMS", "nonfarm_payrolls"),
   ("UNRATE", "unemployment_rate"),
   ("DGS10", "treasury_10y"),
   ("DGS3MO", "treasury_3m"),
   ("BAAFFM", "baa_corporate_yield"),
   ("AAAFFM", "aaa_corporate_yield")]

/-- A fetched FRED series: (date, value) observations. -/
abbrev Series : Type := List (Nat × ℚ)

/-- What `get_recession_predictors` did to the network: whether the
`fredapi.Fred` client was constructed and which series ids had a
`fred.get_series` fetch attempted. -/
structure FetchTrace where
  clientBuilt : Bool
  attempted : List String
deriving DecidableEq, Repr

/-- One fetched series as a one-column DataFrame. -/
def seriesFrame (name : String) (s : Series) : DataFrame :=
  ⟨[name], s.map (fun p => (p.1, [some p.2]))⟩

/-- `pd.DataFrame(data)` over a dict of series: column-wise outer join of
the successfully fetched series on the union of their date indices. -/
def dataFrameOfDict (l : List (String × Series)) : DataFrame :=
  l.foldl (fun acc p => concat2 acc (seriesFrame p.1 p.2)) ⟨[], []⟩

/-- Lines 59-60: `df['yield_spread'] = df['treasury_10y'] - df['treasury_3m']`
and `df['credit_spread'] = df['baa_corporate_yield'] - df['aaa_corporate_yield']`.
Referencing a base column the DataFrame lacks raises a KeyError (the
spec's MissingColumnError). -/
def addSpreads (df : DataFrame) : Except String DataFrame :=
  match colIdx? ("treasury_10y") df.cols with
  | none => .error ("KeyError: treasury_10y")
  | some i10 =>
    match colIdx? ("treasury_3m") df.cols with
    | none => .error ("KeyError: treasury_3m")
    | some i3 =>
      match colIdx? ("baa_corporate_yield") df.cols with
      | none => .error ("KeyError: baa_corporate_yield")
      | some ibaa =>
        match colIdx? ("aaa_corporate_yield") df.cols with
        | none => .error ("KeyError: aaa_corporate_yield")
        | some iaaa =>
          .ok ⟨df.cols ++ ["yield_spread", "credit_spread"],
               df.rows.map (fun r => (r.1,
                 r.2 ++ [subCell (r.2.getD i10 none) (r.2.getD i3 none),
                         subCell (r.2.getD ibaa none) (r.2.getD iaaa none)]))⟩

/-- The per-series fetch loop: one attempt per entry of the `series`
dict; a failed download (`fetch id = none`) is logged and skipped. -/
def fetchedSeries (fetch : String → Option Series) : List (String × Series) :=
  seriesList.filterMap (fun p => (fetch p.1).map (fun s => (p.2, s)))

/-- `get_recession_predictors`: obtain the API key (a ValueError there
aborts before the client is built), construct the client, attempt one
fetch per series id (an individual failure — `fetch id = none` — is
logged and skipped), assemble the DataFrame and add the two spread
columns.  Returns the network trace together with the outcome. -/
def get_recession_predictors (env : String → Option String)
    (fetch : String → Option Series) : FetchTrace × Except String DataFrame :=
  match get_fred_api_key env with
  | .error e => (⟨false, []⟩, .error e)
  | .ok _ =>
    (⟨true, seriesList.map (fun p => p.1)⟩,
     addSpreads (dataFrameOfDict (fetchedSeries fetch)))

/-- The CSV table `pd.read_csv(url, skiprows=[1])` yields on success:
the non-date column names, and one (raw sasdate string, numeric cells)
entry per data row (the transformation-code row already skipped). -/
structure CsvTable where
  header : List String
  rows : List (String × List Cell)
deriving DecidableEq, Repr

/-- `pd.to_datetime` over the sasdate column: `none` if any entry fails
to parse. -/
def parseCsvRows : List (String × List Cell) → Option (List (Nat × List Cell))
  | [] => some []
  | r :: rs =>
    match parseDate r.1, parseCsvRows rs with
    | some d, some l => some ((d, r.2) :: l)
    | _, _ => none

/-- The body of the `try` block of `get_fredmd_data`: download/parse the
CSV (the `fetchCsv` oracle; `.error` is a network or CSV parse
exception), run `pd.to_datetime` over the sasdate column (an unparseable
date raises), and set it as the index. -/
def fredmdCore (fetchCsv : Except String CsvTable) : Except String DataFrame :=
  match fetchCsv with
  | .error e => .error e
  | .ok t =>
    match parseCsvRows t.rows with
    | some rows => .ok ⟨t.header, rows⟩
    | none => .error ("DateParseError: sasdate")

/-- `get_fredmd_data`: the whole fetch/parse runs inside
`try: ... except: return None`; any failure yields `none` (the "no
data" absence signal) instead of an exception. -/
def get_fredmd_data (fetchCsv : Except String CsvTable) : Option DataFrame :=
  match fredmdCore fetchCsv with
  | .ok df => some df
  | .error _ => none

/-- The X-variable column list of line 106, in its fixed order. -/
def xVarNames : List String :=
  ["unemployment_rate", "yield_spread", "credit_spread", "industrial_production"]

/-- The position map of lines 118-122. -/
structure Positions where
  y_pos : Nat
  x_pos : List Nat
  S_pos : List Nat
deriving DecidableEq, Repr

/-- Lines 91-92: the common date range, `start = max of the two index
minima`, `stop = min of the two index maxima`, computed from the
original (pre-resample) indices.  `none` when an index is empty (pandas
yields NaT there). -/
def commonRange (rp fd : DataFrame) : Option (Nat × Nat) :=
  match minDate rp, maxDate rp, minDate fd, maxDate fd with
  | some pmin, some pmax, some fmin, some fmax =>
    some (Nat.max pmin fmin, Nat.min pmax fmax)
  | _, _, _, _ => none

/-- Lines 112-113: concatenate [target, X variables, cleaned panel]
column-wise and drop every row containing a missing value. -/
def assembleMrf (target xv clean : DataFrame) : DataFrame :=
  dropna (concat2 (concat2 target xv) clean)

/-- Lines 118-122: the position map derived from the shapes. -/
def mkPositions (xv mrf : DataFrame) : Positions :=
  ⟨0, List.range' 1 xv.cols.length,
   List.range' (xv.cols.length + 1) (mrf.cols.length - (xv.cols.length + 1))⟩

/-- Lines 91-124 of `create_mrf_dataset`, acting on two frames whose
indices are already datetime: compute the common range from the original
indices, resample both to month-end taking the last observation, trim
both to the inclusive range, select the target and the four X variables
from the predictor side (KeyError if absent), drop USREC from the panel
side, concatenate, drop rows with any NaN, and build the position map. -/
def createCore (rp fd : DataFrame) : Except String (DataFrame × Positions) :=
  match commonRange rp fd with
  | none => .error ("NaT: empty index")
  | some (start, stop) =>
    match select (["recession_indicator"]) (trimTo start stop (resampleM rp)),
          select xVarNames (trimTo start stop (resampleM rp)) with
    | .ok target, .ok xv =>
      .ok (assembleMrf target xv (dropCol ("USREC") (trimTo start stop (resampleM fd))),
           mkPositions xv
             (assembleMrf target xv (dropCol ("USREC") (trimTo start stop (resampleM fd)))))
    | .error e, _ => .error e
    | _, .error e => .error e

/-- Lines 97-98 require a DatetimeIndex on the panel frame: resampling a
frame whose index holds raw strings raises a TypeError. -/
def fdIndexOk (fd : RawFrame) : Bool := fd.isDatetimeIndex

/-- Coerce every index entry to a timestamp; `none` on a parse failure. -/
def coerceRows : List (IdxVal × List Cell) → Option (List (IdxVal × List Cell))
  | [] => some []
  | r :: rs =>
    match r.1.toDate, coerceRows rs with
    | some d, some l => some ((IdxVal.dt d, r.2) :: l)
    | _, _ => none

/-- `pd.to_datetime(df.index)` over a raw index; a parse failure raises. -/
def to_datetimeIndex (rf : RawFrame) : Except String RawFrame :=
  match coerceRows rf.rows with
  | some rows => .ok ⟨rf.cols, rows⟩
  | none => .error ("DateParseError: index")

/-- Lines 87-88: `if not isinstance(rp.index, pd.DatetimeIndex):
rp.index = pd.to_datetime(rp.index)`.  The returned frame is also the
state of the CALLER's `recession_predictors` object after the call,
because the assignment on line 88 is an in-place index mutation. -/
def ensureDatetimeIndex (rf : RawFrame) : Except String RawFrame :=
  if rf.isDatetimeIndex then .ok rf else to_datetimeIndex rf

/-- `create_mrf_dataset(recession_predictors, fredmd_data)`: coerce the
predictor index in place if needed (lines 87-88, the only mutation of an
input), then run the merge pipeline of lines 91-124. -/
def create_mrf_dataset (rp fd : RawFrame) : Except String (DataFrame × Positions) :=
  match ensureDatetimeIndex rp with
  | .error e => .error e
  | .ok rp' =>
    if fdIndexOk fd then createCore rp'.toFrame fd.toFrame
    else .error ("TypeError: resample requires a DatetimeIndex")

/-! ### Concrete fixtures -/

/-- Fixture predictor table: one row per month 2000-01 .. 2000-06 (six
month-end stamped monthly observations), holding the five columns the
merge selects. -/
def fixP : DataFrame :=
  ⟨["recession_indicator", "unemployment_rate", "yield_spread",
    "credit_spread", "industrial_production"],
   (List.range' (2000 * 12) 6).map
     (fun m => (monthEnd m, [some 0, some 1, some 1, some 1, some 1]))⟩

/-- Fixture panel table: one row per month 2000-03 .. 2000-09 (seven
month-end stamped monthly observations), one state column. -/
def fixF : DataFrame :=
  ⟨["ST1"], (List.range' (2000 * 12 + 2) 7).map (fun m => (monthEnd m, [some 1]))⟩

/-- Fixture panel table with a time range disjoint from fixP's:
2001-01 .. 2001-03. -/
def fixFdisj : DataFrame :=
  ⟨["ST1"], (List.range' (2001 * 12) 3).map (fun m => (monthEnd m, [some 1]))⟩

/-- A raw predictor frame whose index is made of strings (not a
DatetimeIndex), as when dates were read back from a CSV without parsing. -/
def fixPRawIdx : RawFrame :=
  ⟨["recession_indicator", "unemployment_rate", "yield_spread",
    "credit_spread", "industrial_production"],
   [(IdxVal.raw ("2000-03-31"), [some 0, some 1, some 1, some 1, some 1])]⟩

/-- An environment holding a FRED key. -/
def envOk : String → Option String :=
  fun s => if s = "FRED_API_KEY" then some ("test_key") else none

/-- An environment with no FRED key at all. -/
def envMissing : String → Option String := fun _ => none

/-- An environment where FRED_API_KEY is set to the empty string. -/
def envEmpty : String → Option String :=
  fun s => if s = "FRED_API_KEY" then some ("") else none

/-- A fetch oracle where every series succeeds with a small three-month
series (values distinguish the ids). -/
def fetchAll : String → Option Series :=
  fun id =>
    if id = "DGS10" then some ((List.range' (2000 * 12) 3).map (fun m => (monthEnd m, 5)))
    else if id = "DGS3MO" then some ((List.range' (2000 * 12) 3).map (fun m => (monthEnd m, 3)))
    else if id = "BAAFFM" then some ((List.range' (2000 * 12) 3).map (fun m => (monthEnd m, 7)))
    else if id = "AAAFFM" then some ((List.range' (2000 * 12) 3).map (fun m => (monthEnd m, 6)))
    else some ((List.range' (2000 * 12) 3).map (fun m => (monthEnd m, 1)))

/-- A fetch oracle where the DGS3MO download fails. -/
def fetchNo3m : String → Option Series :=
  fun id => if id = "DGS3MO" then none else fetchAll id

/-- The merged dataset and position map of the overlapping fixture. -/
def fixOut : DataFrame × Positions :=
  match create_mrf_dataset fixP.toRaw fixF.toRaw with
  | .ok p => p
  | .error _ => (⟨[], []⟩, ⟨0, [], []⟩)

/-- The merged dataset and position map of the disjoint-range fixture. -/
def fixOutDisj : DataFrame × Positions :=
  match create_mrf_dataset fixP.toRaw fixFdisj.toRaw with
  | .ok p => p
  | .error _ => (⟨[], []⟩, ⟨0, [], []⟩)

/-- What the caller's predictor object holds after
`create_mrf_dataset(fixPRawIdx, ...)`: the index entry has been coerced
in place to a timestamp. -/
def fixPCoerced : RawFrame :=
  ⟨["recession_indicator", "unemployment_rate", "yield_spread",
    "credit_spread", "industrial_production"],
   [(IdxVal.dt (ymd 2000 3 31), [some 0, some 1, some 1, some 1, some 1])]⟩

/-- The predictor table produced by the all-success fetch fixture. -/
def fixPred : DataFrame :=
  match (get_recession_predictors envOk fetchAll).2 with
  | .ok df => df
  | .error _ => ⟨[], []⟩

/-- A CSV fixture whose date column does not parse. -/
def csvBad : CsvTable := ⟨["A"], [("notadate", [some 1])]⟩

/-- The cells of one fixP row. -/
def fixPCells : List Cell := [some 0, some 1, some 1, some 1, some 1]

/-- The first row of the overlapping fixture's merged dataset. -/
def fixOutRow : Nat × List Cell :=
  (monthEnd (2000 * 12 + 2), [some 0, some 1, some 1, some 1, some 1, some 1])

/-- The first row of the all-success predictor fixture table (the two
spread cells are the unreduced differences the code computes). -/
def fixPredRow : Nat × List Cell :=
  (monthEnd (2000 * 12),
   [some 1, some 1, some 1, some 1, some 5, some 3, some 7, some 6,
    some ((5 : ℚ) - 3), some ((7 : ℚ) - 6)])

/-! ### Auxiliary lemmas -/

theorem colIdx?_eq_none_iff (n : String) (l : List String) :
    colIdx? n l = none ↔ n ∉ l := by
  induction l with
  | nil => simp [colIdx?]
  | cons c cs ih =>
    by_cases h : c = n
    · simp [colIdx?, h]
    · simp [colIdx?, h, Option.map_eq_none', ih, Ne.symm h]

theorem colIdx?_lt_length {n : String} {l : List String} {i : Nat}
    (h : colIdx? n l = some i) : i < l.length := by
  induction l generalizing i with
  | nil => simp [colIdx?] at h
  | cons c cs ih =>
    simp only [colIdx?] at h
    split at h
    · cases h; simp
    · rcases Option.map_eq_some'.mp h with ⟨j, hj, hji⟩
      subst hji
      exact Nat.succ_lt_succ (ih hj)

theorem colIdx?_append_left {n : String} {l₁ : List String} {i : Nat}
    (h : colIdx? n l₁ = some i) (l₂ : List String) :
    colIdx? n (l₁ ++ l₂) = some i := by
  induction l₁ generalizing i with
  | nil => simp [colIdx?] at h
  | cons c cs ih =>
    rw [List.cons_append]
    simp only [colIdx?] at h ⊢
    by_cases hc : c = n
    · simpa [hc] using h
    · simp only [if_neg hc] at h ⊢
      rcases Option.map_eq_some'.mp h with ⟨j, hj, hji⟩
      rw [ih hj]
      simpa using hji

theorem colIdx?_append_right {n : String} {l₁ : List String}
    (h : n ∉ l₁) (l₂ : List String) :
    colIdx? n (l₁ ++ l₂) = (colIdx? n l₂).map (fun i => i + l₁.length) := by
  induction l₁ with
  | nil => cases h2 : colIdx? n l₂ <;> simp [h2]
  | cons c cs ih =>
    have hc : ¬(c = n) := fun hcn => h (by simp [hcn])
    have hcs : n ∉ cs := fun hm => h (by simp [hm])
    cases h2 : colIdx? n l₂ <;>
      simp [colIdx?, hc, ih hcs, h2, Nat.add_assoc, Nat.add_comm 1]

theorem mem_trimTo {s e : Nat} {df : DataFrame} {x : Nat × List Cell} :
    x ∈ (trimTo s e df).rows ↔ x ∈ df.rows ∧ s ≤ x.1 ∧ x.1 ≤ e := by
  simp [trimTo, List.mem_filter]

theorem trimTo_rows_nil {s e : Nat} (df : DataFrame) (h : e < s) :
    (trimTo s e df).rows = [] := by
  rcases h2 : (trimTo s e df).rows with _ | ⟨x, xs⟩
  · rfl
  · have hx : x ∈ (trimTo s e df).rows := by rw [h2]; exact List.mem_cons_self x xs
    rcases mem_trimTo.mp hx with ⟨_, h3, h4⟩
    omega

theorem mem_insertDate (x d : Nat) (l : List Nat) :
    d ∈ insertDate x l ↔ d = x ∨ d ∈ l := by
  induction l with
  | nil => simp [insertDate]
  | cons y ys ih =>
    by_cases h1 : x < y
    · simp [insertDate, h1]
    · by_cases h2 : x = y
      · subst h2
        rw [show insertDate x (x :: ys) = x :: ys from by
          unfold insertDate
          rw [if_neg h1, if_pos rfl]]
        simp only [List.mem_cons]
        tauto
      · simp only [insertDate, if_neg h1, if_neg h2, List.mem_cons, ih]
        tauto

theorem mem_mergeDates (a b : List Nat) (d : Nat) :
    d ∈ mergeDates a b ↔ d ∈ a ∨ d ∈ b := by
  induction a with
  | nil => simp [mergeDates]
  | cons x xs ih =>
    rw [show mergeDates (x :: xs) b = insertDate x (mergeDates xs b) from rfl,
        mem_insertDate, ih]
    simp only [List.mem_cons]
    tauto

theorem monthOf_monthEnd (m : Nat) : monthOf (monthEnd m) = m := by
  unfold monthOf monthEnd
  omega

theorem combineRows_getD (a : List Cell) :
    ∀ (b : List Cell) (j : Nat),
      (combineRows a b).getD j none = lastCell (a.getD j none) (b.getD j none) := by
  induction a with
  | nil =>
    intro b j
    show b.getD j none = lastCell none (b.getD j none)
    cases h : b.getD j none <;> simp [lastCell, h]
  | cons a as ih =>
    intro b j
    rcases b with _ | ⟨b, bs⟩
    · show (a :: as).getD j none = lastCell ((a :: as).getD j none) none
      rfl
    · rcases j with _ | j
      · rfl
      · simp only [combineRows, List.getD_cons_succ]
        exact ih bs j

theorem monthsOrdered_cons_cells (d : Nat) (c r : List Cell)
    (rest : List (Nat × List Cell)) :
    monthsOrdered ((d, c) :: rest) = monthsOrdered ((d, r) :: rest) := by
  cases rest <;> rfl

theorem monthsOrdered_tail {a : Nat × List Cell} {l : List (Nat × List Cell)}
    (h : monthsOrdered (a :: l) = true) : monthsOrdered l = true := by
  rcases l with _ | ⟨b, rest⟩
  · rfl
  · have h2 : (decide (monthOf a.1 ≤ monthOf b.1)
        && monthsOrdered (b :: rest)) = true := h
    simp only [Bool.and_eq_true] at h2
    exact h2.2

theorem monthsOrdered_head_le (l : List (Nat × List Cell)) :
    ∀ a : Nat × List Cell, monthsOrdered (a :: l) = true →
      ∀ y ∈ a :: l, monthOf a.1 ≤ monthOf y.1 := by
  induction l with
  | nil =>
    intro a _ y hy
    rcases List.mem_singleton.mp hy with rfl
    exact Nat.le_refl _
  | cons b rest ih =>
    intro a h y hy
    have h2 : (decide (monthOf a.1 ≤ monthOf b.1)
        && monthsOrdered (b :: rest)) = true := h
    simp only [Bool.and_eq_true, decide_eq_true_eq] at h2
    rcases List.mem_cons.mp hy with rfl | hy'
    · exact Nat.le_refl _
    · exact Nat.le_trans h2.1 (ih b h2.2 y hy')

theorem lastObsCell_none_of_gt {m j : Nat} {l : List (Nat × List Cell)}
    (h : ∀ y ∈ l, m < monthOf y.1) : lastObsCell m j l = none := by
  induction l with
  | nil => rfl
  | cons a rest ih =>
    have h1 : lastObsCell m j (a :: rest)
        = (match lastObsCell m j rest with
           | some v => some v
           | none => if monthOf a.1 = m then a.2.getD j none else none) := rfl
    rw [h1, ih (fun y hy => h y (List.mem_cons_of_mem _ hy))]
    simp only []
    rw [if_neg]
    intro he
    have := h a (List.mem_cons_self _ _)
    omega

theorem lastObsCell_cons_combine {d₁ d₂ : Nat} {r₁ r₂ : List Cell}
    {rest : List (Nat × List Cell)} (hm : monthOf d₁ = monthOf d₂) (m j : Nat) :
    lastObsCell m j ((d₂, combineRows r₁ r₂) :: rest)
      = lastObsCell m j ((d₁, r₁) :: (d₂, r₂) :: rest) := by
  have hL : lastObsCell m j ((d₂, combineRows r₁ r₂) :: rest)
      = (match lastObsCell m j rest with
         | some v => some v
         | none => if monthOf d₂ = m then (combineRows r₁ r₂).getD j none
                   else none) := rfl
  have hR : lastObsCell m j ((d₁, r₁) :: (d₂, r₂) :: rest)
      = (match (match lastObsCell m j rest with
                | some v => some v
                | none => if monthOf d₂ = m then r₂.getD j none else none) with
         | some v => some v
         | none => if monthOf d₁ = m then r₁.getD j none else none) := rfl
  rw [hL, hR]
  rcases ht : lastObsCell m j rest with _ | v
  · simp only []
    by_cases hdm : monthOf d₂ = m
    · rw [if_pos hdm, if_pos hdm, combineRows_getD]
      rcases h2 : r₂.getD j none with _ | w
      · simp only [lastCell]
        rw [if_pos (hm.trans hdm)]
      · rfl
    · rw [if_neg hdm, if_neg hdm]
      simp only []
      rw [if_neg (fun h => hdm (hm ▸ h))]
  · rfl

theorem resampleGo_monthEnd (l : List (Nat × List Cell)) :
    ∀ (d : Nat) (acc : List Cell), ∀ x ∈ resampleGo d acc l, ∃ m, x.1 = monthEnd m := by
  induction l with
  | nil =>
    intro d acc x hx
    rw [resampleGo] at hx
    rcases List.mem_singleton.mp hx with rfl
    exact ⟨monthOf d, rfl⟩
  | cons hd rest ih =>
    intro d acc x hx
    obtain ⟨d₂, r₂⟩ := hd
    rw [resampleGo] at hx
    by_cases hm : monthOf d = monthOf d₂
    · rw [if_pos hm] at hx
      exact ih d₂ (combineRows acc r₂) x hx
    · rw [if_neg hm] at hx
      rcases List.mem_cons.mp hx with rfl | hx'
      · exact ⟨monthOf d, rfl⟩
      · exact ih d₂ r₂ x hx'

theorem resampleRows_monthEnd (l : List (Nat × List Cell)) :
    ∀ x ∈ resampleRows l, ∃ m, x.1 = monthEnd m := by
  rcases l with _ | ⟨⟨d, r⟩, rest⟩
  · intro x hx
    simp [resampleRows] at hx
  · intro x hx
    exact resampleGo_monthEnd rest d r x hx

theorem resampleGo_months_mem (l : List (Nat × List Cell)) :
    ∀ (d : Nat) (acc : List Cell), ∀ x ∈ resampleGo d acc l,
      monthOf x.1 = monthOf d ∨ ∃ y ∈ l, monthOf x.1 = monthOf y.1 := by
  induction l with
  | nil =>
    intro d acc x hx
    rw [resampleGo] at hx
    rcases List.mem_singleton.mp hx with rfl
    exact Or.inl (monthOf_monthEnd _)
  | cons hd rest ih =>
    intro d acc x hx
    obtain ⟨d₂, r₂⟩ := hd
    rw [resampleGo] at hx
    by_cases hm : monthOf d = monthOf d₂
    · rw [if_pos hm] at hx
      rcases ih d₂ (combineRows acc r₂) x hx with h | ⟨y, hy, hxy⟩
      · exact Or.inr ⟨(d₂, r₂), List.mem_cons_self _ _, h⟩
      · exact Or.inr ⟨y, List.mem_cons_of_mem _ hy, hxy⟩
    · rw [if_neg hm] at hx
      rcases List.mem_cons.mp hx with rfl | hx'
      · exact Or.inl (monthOf_monthEnd _)
      · rcases ih d₂ r₂ x hx' with h | ⟨y, hy, hxy⟩
        · exact Or.inr ⟨(d₂, r₂), List.mem_cons_self _ _, h⟩
        · exact Or.inr ⟨y, List.mem_cons_of_mem _ hy, hxy⟩

theorem resampleGo_cells_spec (l : List (Nat × List Cell)) :
    ∀ (d : Nat) (acc : List Cell), monthsOrdered ((d, acc) :: l) = true →
      ∀ x ∈ resampleGo d acc l, ∀ j : Nat,
        x.2.getD j none = lastObsCell (monthOf x.1) j ((d, acc) :: l) := by
  induction l with
  | nil =>
    intro d acc _ x hx j
    rw [resampleGo] at hx
    rcases List.mem_singleton.mp hx with rfl
    simp only [monthOf_monthEnd]
    have h1 : lastObsCell (monthOf d) j [(d, acc)]
        = (if monthOf d = monthOf d then acc.getD j none else none) := rfl
    rw [h1, if_pos rfl]
  | cons hd rest ih =>
    intro d acc hsort x hx j
    obtain ⟨d₂, r₂⟩ := hd
    rw [resampleGo] at hx
    have hsort₂ : monthsOrdered ((d₂, r₂) :: rest) = true := monthsOrdered_tail hsort
    by_cases hm : monthOf d = monthOf d₂
    · rw [if_pos hm] at hx
      have hsortc : monthsOrdered ((d₂, combineRows acc r₂) :: rest) = true := by
        rw [monthsOrdered_cons_cells d₂ (combineRows acc r₂) r₂]
        exact hsort₂
      rw [ih d₂ (combineRows acc r₂) hsortc x hx j, lastObsCell_cons_combine hm]
    · rw [if_neg hm] at hx
      have hpair : monthOf d ≤ monthOf d₂
          ∧ monthsOrdered ((d₂, r₂) :: rest) = true := by
        have h2 : (decide (monthOf d ≤ monthOf d₂)
            && monthsOrdered ((d₂, r₂) :: rest)) = true := hsort
        simp only [Bool.and_eq_true, decide_eq_true_eq] at h2
        exact h2
      have hlt : monthOf d < monthOf d₂ := Nat.lt_of_le_of_ne hpair.1 hm
      rcases List.mem_cons.mp hx with rfl | hx'
      · simp only [monthOf_monthEnd]
        have hnone : lastObsCell (monthOf d) j ((d₂, r₂) :: rest) = none :=
          lastObsCell_none_of_gt (fun y hy =>
            Nat.lt_of_lt_of_le hlt (monthsOrdered_head_le rest (d₂, r₂) hsort₂ y hy))
        have h1 : lastObsCell (monthOf d) j ((d, acc) :: (d₂, r₂) :: rest)
            = (match lastObsCell (monthOf d) j ((d₂, r₂) :: rest) with
               | some v => some v
               | none => if monthOf d = monthOf d then acc.getD j none
                         else none) := rfl
        rw [h1, hnone]
        simp
      · have hihx := ih d₂ r₂ hsort₂ x hx' j
        have h1 : lastObsCell (monthOf x.1) j ((d, acc) :: (d₂, r₂) :: rest)
            = (match lastObsCell (monthOf x.1) j ((d₂, r₂) :: rest) with
               | some v => some v
               | none => if monthOf d = monthOf x.1 then acc.getD j none
                         else none) := rfl
        rw [h1]
        rcases ht : lastObsCell (monthOf x.1) j ((d₂, r₂) :: rest) with _ | v
        · rw [ht] at hihx
          rw [hihx]
          simp only []
          have hxge : monthOf d₂ ≤ monthOf x.1 := by
            rcases resampleGo_months_mem rest d₂ r₂ x hx' with h | ⟨y, hy, hxy⟩
            · rw [h]
            · rw [hxy]
              exact monthsOrdered_head_le rest (d₂, r₂) hsort₂ y
                (List.mem_cons_of_mem _ hy)
          rw [if_neg (by omega)]
        · rw [ht] at hihx
          simp only []
          exact hihx

theorem resampleRows_cells_spec (l : List (Nat × List Cell))
    (hsort : monthsOrdered l = true) :
    ∀ x ∈ resampleRows l, ∀ j : Nat,
      x.2.getD j none = lastObsCell (monthOf x.1) j l := by
  rcases l with _ | ⟨⟨d, r⟩, rest⟩
  · intro x hx
    simp [resampleRows] at hx
  · intro x hx j
    exact resampleGo_cells_spec rest d r hsort x hx j

theorem resampleGo_monthHas (l : List (Nat × List Cell)) :
    ∀ (d : Nat) (acc : List Cell) (m : Nat),
      (monthOf d = m ∨ monthHas m l = true) →
      ∃ r, (monthEnd m, r) ∈ resampleGo d acc l := by
  induction l with
  | nil =>
    intro d acc m h
    rcases h with rfl | h
    · exact ⟨acc, by rw [resampleGo]; exact List.mem_singleton.mpr rfl⟩
    · simp [monthHas] at h
  | cons hd rest ih =>
    intro d acc m h
    obtain ⟨d₂, r₂⟩ := hd
    rw [resampleGo]
    by_cases hm : monthOf d = monthOf d₂
    · rw [if_pos hm]
      apply ih d₂ (combineRows acc r₂) m
      rcases h with h1 | h2
      · exact Or.inl (hm ▸ h1)
      · simp only [monthHas, List.any_cons, Bool.or_eq_true, beq_iff_eq] at h2
        rcases h2 with h3 | h4
        · exact Or.inl h3
        · exact Or.inr h4
    · rw [if_neg hm]
      rcases h with rfl | h2
      · exact ⟨acc, List.mem_cons_self _ _⟩
      · simp only [monthHas, List.any_cons, Bool.or_eq_true, beq_iff_eq] at h2
        rcases h2 with h3 | h4
        · rcases ih d₂ r₂ m (Or.inl h3) with ⟨r, hr⟩
          exact ⟨r, List.mem_cons_of_mem _ hr⟩
        · rcases ih d₂ r₂ m (Or.inr h4) with ⟨r, hr⟩
          exact ⟨r, List.mem_cons_of_mem _ hr⟩

theorem resampleRows_monthHas (l : List (Nat × List Cell)) (m : Nat)
    (h : monthHas m l = true) : ∃ r, (monthEnd m, r) ∈ resampleRows l := by
  rcases l with _ | ⟨⟨d, r⟩, rest⟩
  · simp [monthHas] at h
  · simp only [monthHas, List.any_cons, Bool.or_eq_true, beq_iff_eq] at h
    rcases h with h1 | h2
    · exact resampleGo_monthHas rest d r m (Or.inl h1)
    · exact resampleGo_monthHas rest d r m (Or.inr h2)

theorem mem_gapFill (n : Nat) (l : List (Nat × List Cell)) :
    ∀ x ∈ l, x ∈ gapFill n l := by
  induction l using gapFill.induct n with
  | case1 => intro x hx; cases hx
  | case2 y => intro x hx; simpa [gapFill] using hx
  | case3 y z rest ih =>
    intro x hx
    rw [gapFill]
    rcases List.mem_cons.mp hx with rfl | hx'
    · exact List.mem_cons_self _ _
    · exact List.mem_cons_of_mem _ (List.mem_append_right _ (ih x hx'))

theorem gapFill_monthEnd (n : Nat) (l : List (Nat × List Cell))
    (hl : ∀ x ∈ l, ∃ m, x.1 = monthEnd m) :
    ∀ x ∈ gapFill n l, ∃ m, x.1 = monthEnd m := by
  induction l using gapFill.induct n with
  | case1 => intro x hx; cases hx
  | case2 y => intro x hx; exact hl x (by simpa [gapFill] using hx)
  | case3 y z rest ih =>
    intro x hx
    rw [gapFill] at hx
    rcases List.mem_cons.mp hx with rfl | hx'
    · exact hl x (List.mem_cons_self _ _)
    · rcases List.mem_append.mp hx' with hins | hrec
      · rcases List.mem_map.mp hins with ⟨m, _, rfl⟩
        exact ⟨m, rfl⟩
      · exact ih (fun x' hx' => hl x' (List.mem_cons_of_mem _ hx')) x hrec

theorem concat2_cols (a b : DataFrame) : (concat2 a b).cols = a.cols ++ b.cols := rfl

theorem concat2_dates (a b : DataFrame) :
    (concat2 a b).rows.map Prod.fst
      = mergeDates (a.rows.map Prod.fst) (b.rows.map Prod.fst) := by
  simp only [concat2]
  rw [List.map_map]
  have h1 : (Prod.fst ∘ fun d => (d, rowAt a d ++ rowAt b d)) = id := rfl
  rw [h1, List.map_id]

theorem select_ok_cols {names : List String} {df t : DataFrame}
    (h : select names df = .ok t) : t.cols = names := by
  unfold select at h
  split at h
  · cases h; rfl
  · cases h

theorem select_ok_dates {names : List String} {df t : DataFrame}
    (h : select names df = .ok t) :
    t.rows.map Prod.fst = df.rows.map Prod.fst := by
  unfold select at h
  split at h
  · cases h; simp [List.map_map, Function.comp]
  · cases h

theorem dropCol_dates (n : String) (df : DataFrame) :
    (dropCol n df).rows.map Prod.fst = df.rows.map Prod.fst := by
  unfold dropCol
  split
  · simp [List.map_map, Function.comp]
  · rfl

theorem dropCol_not_mem (n : String) (df : DataFrame) :
    n ∉ (dropCol n df).cols := by
  unfold dropCol
  split
  · intro hmem
    rcases List.mem_filter.mp hmem with ⟨_, hne⟩
    simp at hne
  · rename_i hno
    exact hno

theorem dropCol_id {n : String} {df : DataFrame} (h : n ∉ df.cols) :
    dropCol n df = df := by
  unfold dropCol
  rw [if_neg h]

theorem mem_dropna {df : DataFrame} {x : Nat × List Cell}
    (h : x ∈ (dropna df).rows) : x ∈ df.rows :=
  (List.mem_filter.mp h).1

theorem coerceRows_toFrame {rows rows' : List (IdxVal × List Cell)}
    (h : coerceRows rows = some rows') :
    rows'.filterMap idxEntryDate = rows.filterMap idxEntryDate := by
  induction rows generalizing rows' with
  | nil => cases h; rfl
  | cons r rs ih =>
    simp only [coerceRows] at h
    rcases hd : r.1.toDate with _ | d
    · rw [hd] at h; cases h
    · rw [hd] at h
      rcases hrec : coerceRows rs with _ | l
      · rw [hrec] at h; cases h
      · rw [hrec] at h
        cases h
        rw [List.filterMap_cons, List.filterMap_cons]
        have h1 : idxEntryDate (IdxVal.dt d, r.2) = some (d, r.2) := rfl
        have h2 : idxEntryDate r = some (d, r.2) := by
          unfold idxEntryDate
          rw [hd]
          rfl
        rw [h1, h2, ih hrec]

theorem ensureDatetimeIndex_toFrame {rf rf' : RawFrame}
    (h : ensureDatetimeIndex rf = .ok rf') : rf'.toFrame = rf.toFrame := by
  unfold ensureDatetimeIndex at h
  split at h
  · cases h; rfl
  · unfold to_datetimeIndex at h
    rcases hc : coerceRows rf.rows with _ | rows
    · rw [hc] at h; cases h
    · rw [hc] at h
      cases h
      unfold RawFrame.toFrame
      simp only
      rw [coerceRows_toFrame hc]

theorem rowAt_length {a : DataFrame} (h : a.WF) (d : Nat) :
    (rowAt a d).length = a.cols.length := by
  unfold rowAt lookupRow
  rcases hf : a.rows.find? (fun r => r.1 == d) with _ | r
  · rw [hf]
    simp
  · rw [hf]
    simp only [Option.map_some', Option.getD_some]
    exact h r (List.mem_of_find?_eq_some hf)

theorem WF_concat2 {a b : DataFrame} (ha : a.WF) (hb : b.WF) :
    (concat2 a b).WF := by
  intro r hr
  rcases List.mem_map.mp hr with ⟨d, _, rfl⟩
  simp only [concat2, List.length_append]
  rw [rowAt_length ha, rowAt_length hb]

theorem WF_seriesFrame (name : String) (s : Series) : (seriesFrame name s).WF := by
  intro r hr
  rcases List.mem_map.mp hr with ⟨p, _, rfl⟩
  rfl

theorem WF_foldlFrames (l : List (String × Series)) :
    ∀ acc : DataFrame, acc.WF →
      (l.foldl (fun acc p => concat2 acc (seriesFrame p.1 p.2)) acc).WF := by
  induction l with
  | nil => intro acc ha; exact ha
  | cons p ps ih =>
    intro acc ha
    rw [List.foldl_cons]
    exact ih _ (WF_concat2 ha (WF_seriesFrame p.1 p.2))

theorem WF_dataFrameOfDict (l : List (String × Series)) : (dataFrameOfDict l).WF :=
  WF_foldlFrames l ⟨[], []⟩ (by intro r hr; cases hr)

theorem foldlFrames_cols (l : List (String × Series)) :
    ∀ acc : DataFrame,
      (l.foldl (fun acc p => concat2 acc (seriesFrame p.1 p.2)) acc).cols
        = acc.cols ++ l.map (fun p => p.1) := by
  induction l with
  | nil => intro acc; simp
  | cons p ps ih =>
    intro acc
    rw [List.foldl_cons, ih]
    simp [concat2, seriesFrame]

theorem dataFrameOfDict_cols (l : List (String × Series)) :
    (dataFrameOfDict l).cols = l.map (fun p => p.1) := by
  unfold dataFrameOfDict
  rw [foldlFrames_cols]
  rfl

theorem mem_fetched_cols {fetch : String → Option Series} {s : String}
    (h : s ∈ (dataFrameOfDict (fetchedSeries fetch)).cols) :
    ∃ p ∈ seriesList, p.2 = s ∧ (fetch p.1).isSome := by
  rw [dataFrameOfDict_cols] at h
  rcases List.mem_map.mp h with ⟨x, hx, rfl⟩
  rcases List.mem_filterMap.mp hx with ⟨p, hp, hfp⟩
  rcases Option.map_eq_some'.mp hfp with ⟨ser, hser, hx2⟩
  refine ⟨p, hp, ?_, ?_⟩
  · rw [← hx2]
  · rw [hser]; rfl

theorem parseCsvRows_none {rows : List (String × List Cell)}
    {r : String × List Cell} (hr : r ∈ rows) (hp : parseDate r.1 = none) :
    parseCsvRows rows = none := by
  induction rows with
  | nil => cases hr
  | cons r' rs ih =>
    rcases List.mem_cons.mp hr with rfl | hr'
    · unfold parseCsvRows
      rw [hp]
    · unfold parseCsvRows
      rw [ih hr']
      rcases hp' : parseDate r'.1 <;> rfl

theorem commonRange_eq {rp fd : DataFrame} {pmin pmax fmin fmax : Nat}
    (h1 : minDate rp = some pmin) (h2 : maxDate rp = some pmax)
    (h3 : minDate fd = some fmin) (h4 : maxDate fd = some fmax) :
    commonRange rp fd = some (Nat.max pmin fmin, Nat.min pmax fmax) := by
  unfold commonRange
  rw [h1, h2, h3, h4]

theorem createCore_ok_inv {rp fd : DataFrame} {d : DataFrame} {pos : Positions}
    (h : createCore rp fd = .ok (d, pos)) :
    ∃ (start stop : Nat) (target xv : DataFrame),
      commonRange rp fd = some (start, stop)
      ∧ select (["recession_indicator"]) (trimTo start stop (resampleM rp)) = .ok target
      ∧ select xVarNames (trimTo start stop (resampleM rp)) = .ok xv
      ∧ d = assembleMrf target xv (dropCol ("USREC") (trimTo start stop (resampleM fd)))
      ∧ pos = mkPositions xv d := by
  unfold createCore at h
  rcases hcr : commonRange rp fd with _ | ⟨start, stop⟩
  · rw [hcr] at h
    cases h
  · rw [hcr] at h
    simp only at h
    rcases hs1 : select (["recession_indicator"]) (trimTo start stop (resampleM rp)) with e | target
    · rw [hs1] at h
      rcases hs2 : select xVarNames (trimTo start stop (resampleM rp)) with e2 | xv <;>
        rw [hs2] at h <;> cases h
    · rw [hs1] at h
      rcases hs2 : select xVarNames (trimTo start stop (resampleM rp)) with e2 | xv
      · rw [hs2] at h
        cases h
      · rw [hs2] at h
        simp only [Except.ok.injEq, Prod.mk.injEq] at h
        exact ⟨start, stop, target, xv, rfl, hs1, hs2, h.1.symm, by rw [← h.1, ← h.2]⟩

theorem create_mrf_dataset_ok_inv {rp fd : RawFrame} {out : DataFrame × Positions}
    (h : create_mrf_dataset rp fd = .ok out) :
    createCore rp.toFrame fd.toFrame = .ok out := by
  unfold create_mrf_dataset at h
  rcases he : ensureDatetimeIndex rp with e | rp'
  · rw [he] at h
    cases h
  · rw [he] at h
    simp only at h
    split at h
    · rw [← ensureDatetimeIndex_toFrame he]
      exact h
    · cases h

theorem foldl_max_range' (n : Nat) :
    ∀ s a : Nat, (List.range' s (n + 1)).foldl Nat.max a = Nat.max a (s + n) := by
  induction n with
  | zero =>
    intro s a
    simp [List.range']
  | succ n ih =>
    intro s a
    rw [List.range'_succ, List.foldl_cons, ih]
    have h3 : Nat.max (Nat.max a s) (s + 1 + n) = Nat.max a (Nat.max s (s + 1 + n)) :=
      Nat.max_assoc a s (s + 1 + n)
    rw [h3]
    have h2 : Nat.max s (s + 1 + n) = s + 1 + n := Nat.max_eq_right (by omega)
    rw [h2]
    have h1 : s + 1 + n = s + (n + 1) := by omega
    rw [h1]

/-! ### Claim theorems -/

/-- Claim C4: when the FRED_API_KEY environment variable is absent,
`get_fred_api_key` raises the configuration ValueError carrying the
descriptive remediation message, and in `get_recession_predictors` this
happens before any network activity: the fredapi client is not
constructed and no series fetch is attempted. -/
theorem c4_missing_credential (env : String → Option String)
    (fetch : String → Option Series) (h : env ("FRED_API_KEY") = none) :
    get_fred_api_key env = .error fredKeyMsg
    ∧ get_recession_predictors env fetch = (⟨false, []⟩, .error fredKeyMsg) := by
  have hk : get_fred_api_key env = .error fredKeyMsg := by
    unfold get_fred_api_key
    rw [h]
  refine ⟨hk, ?_⟩
  unfold get_recession_predictors
  rw [hk]

/-- Witness for C4: the concrete key-less environment. -/
theorem c4_missing_credential_witness :
    get_fred_api_key envMissing = .error fredKeyMsg
    ∧ get_recession_predictors envMissing fetchAll = (⟨false, []⟩, .error fredKeyMsg) :=
  c4_missing_credential envMissing fetchAll rfl

/-- Claim C10: an empty-string FRED_API_KEY is treated exactly like an
absent one (`if not api_key:` is true for the empty string), raising the
configuration ValueError; `get_fred_api_key` never returns an empty key. -/
theorem c10_empty_credential :
    (∀ env : String → Option String, env ("FRED_API_KEY") = some ("") →
      get_fred_api_key env = .error fredKeyMsg)
    ∧ ∀ (env : String → Option String) (k : String),
        get_fred_api_key env = .ok k → k ≠ "" := by
  constructor
  · intro env h
    unfold get_fred_api_key
    rw [h]
    rfl
  · intro env k h hk
    subst hk
    unfold get_fred_api_key at h
    rcases he : env ("FRED_API_KEY") with _ | k'
    · rw [he] at h
      cases h
    · rw [he] at h
      simp only [] at h
      by_cases hk' : k'.isEmpty = true
      · rw [if_pos hk'] at h
        cases h
      · rw [if_neg hk'] at h
        cases h
        exact hk' rfl

/-- Witness for C10: the empty-string environment errors; a nonempty
key is returned as-is (and is not the empty string). -/
theorem c10_empty_credential_witness :
    get_fred_api_key envEmpty = .error fredKeyMsg ∧ ("test_key" : String) ≠ "" :=
  ⟨c10_empty_credential.1 envEmpty rfl, c10_empty_credential.2 envOk ("test_key") rfl⟩

/-- Claim C6: whenever the FRED-MD download (or CSV parse) fails, or the
date column fails to parse, `get_fredmd_data` returns the `none` absence
signal instead of propagating an exception (the function is total). -/
theorem c6_fredmd_failure_returns_none :
    (∀ e : String, get_fredmd_data (.error e) = none)
    ∧ ∀ (t : CsvTable) (r : String × List Cell), r ∈ t.rows →
        parseDate r.1 = none → get_fredmd_data (.ok t) = none := by
  constructor
  · intro e
    rfl
  · intro t r hr hp
    simp only [get_fredmd_data, fredmdCore, parseCsvRows_none hr hp]

/-- Witness for C6: a failed download and an unparseable date column
both yield the absence signal. -/
theorem c6_fredmd_failure_returns_none_witness :
    get_fredmd_data (.error ("HTTPError: 404")) = none
    ∧ get_fredmd_data (.ok csvBad) = none :=
  ⟨c6_fredmd_failure_returns_none.1 ("HTTPError: 404"),
   c6_fredmd_failure_returns_none.2 csvBad ("notadate", [some 1])
     (List.mem_singleton.mpr rfl) (by decide)⟩

/-- Claim C9 (amended): the panel input of `create_mrf_dataset` is never
modified, and the predictor input is unmodified whenever its index is
already a DatetimeIndex (the line-87 guard skips the in-place index
assignment of line 88); every frame built with a datetime index passes
that guard. -/
theorem c9_inputs_unmodified_when_datetime :
    (∀ rf : RawFrame, rf.isDatetimeIndex = true → ensureDatetimeIndex rf = .ok rf)
    ∧ ∀ df : DataFrame, (DataFrame.toRaw df).isDatetimeIndex = true := by
  constructor
  · intro rf h
    unfold ensureDatetimeIndex
    rw [if_pos h]
  · intro df
    unfold RawFrame.isDatetimeIndex DataFrame.toRaw
    rw [List.all_eq_true]
    intro r hr
    rcases List.mem_map.mp hr with ⟨x, _, rfl⟩
    rfl

/-- Witness for the amended C9: the fixture frames pass the guard
untouched. -/
theorem c9_inputs_unmodified_when_datetime_witness :
    ensureDatetimeIndex fixP.toRaw = .ok fixP.toRaw
    ∧ (DataFrame.toRaw fixF).isDatetimeIndex = true :=
  ⟨c9_inputs_unmodified_when_datetime.1 fixP.toRaw rfl,
   c9_inputs_unmodified_when_datetime.2 fixF⟩

/-- Counterexample for C9 as stated: on a predictor table whose index is
not a DatetimeIndex, `create_mrf_dataset` succeeds, but line 88 replaces
the caller's index in place — the caller-visible predictor object after
the call (`ensureDatetimeIndex`'s result, per the in-place assignment of
line 88) differs from the object passed in. -/
theorem c9_counterexample :
    (create_mrf_dataset fixPRawIdx fixF.toRaw).isOk = true
    ∧ ensureDatetimeIndex fixPRawIdx = .ok fixPCoerced
    ∧ fixPCoerced ≠ fixPRawIdx := by
  refine ⟨rfl, rfl, ?_⟩
  decide

/-- Claim C8: any panel column named USREC is dropped before
concatenation (the merged dataset never carries it), and the drop is
tolerant: a panel frame without that column is returned unchanged, so
its absence cannot raise. -/
theorem c8_usrec_drop :
    (∀ df : DataFrame, ("USREC") ∉ (dropCol ("USREC") df).cols)
    ∧ (∀ df : DataFrame, ("USREC") ∉ df.cols → dropCol ("USREC") df = df)
    ∧ ∀ (rp fd : RawFrame) (d : DataFrame) (pos : Positions),
        create_mrf_dataset rp fd = .ok (d, pos) → ("USREC") ∉ d.cols := by
  refine ⟨fun df => dropCol_not_mem _ df, fun df h => dropCol_id h, ?_⟩
  intro rp fd d pos h
  rcases createCore_ok_inv (create_mrf_dataset_ok_inv h) with
    ⟨start, stop, target, xv, hcr, hs1, hs2, hd, hpos⟩
  have ht := select_ok_cols hs1
  have hx := select_ok_cols hs2
  intro hmem
  rw [hd] at hmem
  have hcols : (assembleMrf target xv
        (dropCol ("USREC") (trimTo start stop (resampleM fd.toFrame)))).cols
      = (target.cols ++ xv.cols)
        ++ (dropCol ("USREC") (trimTo start stop (resampleM fd.toFrame))).cols := rfl
  rw [hcols, ht, hx] at hmem
  rcases List.mem_append.mp hmem with h1 | h2
  · rcases List.mem_append.mp h1 with h1a | h1b
    · simp at h1a
    · simp [xVarNames] at h1b
  · exact dropCol_not_mem _ _ h2

/-- Witness for C8: the fixture panel (which lacks USREC) passes through
the drop unchanged and the fixture merge output carries no USREC. -/
theorem c8_usrec_drop_witness :
    ("USREC") ∉ (dropCol ("USREC") fixF).cols
    ∧ dropCol ("USREC") fixF = fixF
    ∧ ("USREC") ∉ fixOut.1.cols :=
  ⟨c8_usrec_drop.1 fixF, c8_usrec_drop.2.1 fixF (by decide),
   c8_usrec_drop.2.2 fixP.toRaw fixF.toRaw fixOut.1 fixOut.2 (by rfl)⟩

/-- Claim C2: every merged dataset returned by `create_mrf_dataset`
comes with the position map `y_pos = 0`, `x_pos = [1, 2, 3, 4]` (four X
variables, immediately following the target), and `S_pos` the contiguous
range from 5 up to the last column; whenever there is at least one state
column, `max(S_pos)` is the dataset's column count minus one. -/
theorem c2_position_map (rp fd : RawFrame) (d : DataFrame) (pos : Positions)
    (h : create_mrf_dataset rp fd = .ok (d, pos)) :
    pos.y_pos = 0
    ∧ pos.x_pos = [1, 2, 3, 4]
    ∧ pos.x_pos.length = 4
    ∧ pos.S_pos = List.range' 5 (d.cols.length - 5)
    ∧ (pos.S_pos ≠ [] → pos.S_pos.foldl Nat.max 0 = d.cols.length - 1) := by
  rcases createCore_ok_inv (create_mrf_dataset_ok_inv h) with
    ⟨start, stop, target, xv, hcr, hs1, hs2, hd, hpos⟩
  have hxlen : xv.cols.length = 4 := by
    rw [select_ok_cols hs2]
    rfl
  rw [hpos]
  unfold mkPositions
  refine ⟨rfl, ?_, ?_, ?_, ?_⟩
  · rw [hxlen]
    all_goals rfl
  · rw [hxlen]
    all_goals rfl
  · rw [hxlen]
    all_goals rfl
  · intro hne
    rw [hxlen] at hne ⊢
    have hne' : List.range' 5 (d.cols.length - 5) ≠ [] := hne
    show List.foldl Nat.max 0 (List.range' 5 (d.cols.length - 5)) = d.cols.length - 1
    rcases hk : d.cols.length - 5 with _ | k
    · exact absurd (by rw [hk]; all_goals rfl) hne'
    · rw [foldl_max_range']
      have h5 : Nat.max 0 (5 + k) = 5 + k := Nat.zero_max _
      rw [h5]
      omega

/-- Witness for C2: the overlapping fixture's position map. -/
theorem c2_position_map_witness :
    fixOut.2.y_pos = 0
    ∧ fixOut.2.x_pos = [1, 2, 3, 4]
    ∧ fixOut.2.x_pos.length = 4
    ∧ fixOut.2.S_pos = List.range' 5 (fixOut.1.cols.length - 5)
    ∧ (fixOut.2.S_pos ≠ [] → fixOut.2.S_pos.foldl Nat.max 0 = fixOut.1.cols.length - 1) :=
  c2_position_map fixP.toRaw fixF.toRaw fixOut.1 fixOut.2 (by rfl)

/-- Claim C3: when the two input time ranges are disjoint (the max of
the index minima exceeds the min of the index maxima), a successful
`create_mrf_dataset` returns a zero-row dataset — it never returns rows
outside the (empty) overlap. -/
theorem c3_disjoint_ranges (rp fd : RawFrame) (d : DataFrame) (pos : Positions)
    (pmin pmax fmin fmax : Nat)
    (h1 : minDate rp.toFrame = some pmin) (h2 : maxDate rp.toFrame = some pmax)
    (h3 : minDate fd.toFrame = some fmin) (h4 : maxDate fd.toFrame = some fmax)
    (hdisj : Nat.min pmax fmax < Nat.max pmin fmin)
    (h : create_mrf_dataset rp fd = .ok (d, pos)) : d.rows = [] := by
  rcases createCore_ok_inv (create_mrf_dataset_ok_inv h) with
    ⟨start, stop, target, xv, hcr, hs1, hs2, hd, hpos⟩
  rw [commonRange_eq h1 h2 h3 h4] at hcr
  cases hcr
  have hpa : (trimTo (Nat.max pmin fmin) (Nat.min pmax fmax)
      (resampleM rp.toFrame)).rows = [] := trimTo_rows_nil _ hdisj
  have hfa : (trimTo (Nat.max pmin fmin) (Nat.min pmax fmax)
      (resampleM fd.toFrame)).rows = [] := trimTo_rows_nil _ hdisj
  have htarget : target.rows = [] := by
    have hm := select_ok_dates hs1
    rw [hpa] at hm
    exact List.map_eq_nil_iff.mp hm
  have hxv : xv.rows = [] := by
    have hm := select_ok_dates hs2
    rw [hpa] at hm
    exact List.map_eq_nil_iff.mp hm
  have hclean : (dropCol ("USREC") (trimTo (Nat.max pmin fmin) (Nat.min pmax fmax)
      (resampleM fd.toFrame))).rows = [] := by
    have hm := dropCol_dates ("USREC") (trimTo (Nat.max pmin fmin) (Nat.min pmax fmax)
      (resampleM fd.toFrame))
    rw [hfa] at hm
    exact List.map_eq_nil_iff.mp hm
  rw [hd]
  unfold assembleMrf dropna concat2
  simp [htarget, hxv, hclean, mergeDates]

/-- Witness for C3: the disjoint fixture yields a zero-row dataset. -/
theorem c3_disjoint_ranges_witness : fixOutDisj.1.rows = [] :=
  c3_disjoint_ranges fixP.toRaw fixFdisj.toRaw fixOutDisj.1 fixOutDisj.2
    (monthEnd (2000 * 12)) (monthEnd (2000 * 12 + 5))
    (monthEnd (2001 * 12)) (monthEnd (2001 * 12 + 2))
    (by rfl) (by rfl) (by rfl) (by rfl) (by decide) (by rfl)

theorem dates_bound {s e : Nat} {df : DataFrame} {dd : Nat}
    (h : dd ∈ (trimTo s e df).rows.map Prod.fst) : s ≤ dd ∧ dd ≤ e := by
  rcases List.mem_map.mp h with ⟨y, hy, rfl⟩
  rcases mem_trimTo.mp hy with ⟨_, h1, h2⟩
  exact ⟨h1, h2⟩

/-- Claim C1: `create_mrf_dataset` resamples both tables to monthly
granularity taking, per column, the last non-null observation of each
calendar month (`resample('M').last()` skipna semantics — not an
average, and not the literal last row): for every chronologically
indexed table, each month with data yields a month-end row whose column
`j` holds `lastObsCell`, the month's last non-null value of column `j`;
every resampled label is a month end; both resampled tables are
restricted to the inclusive range [start, stop] with start the max of
the two original index minima and stop the min of the maxima, so every
row of the merged dataset lies in [start, stop]; on the fixture with
predictor months 2000-01..2000-06 and panel months 2000-03..2000-09 the
merged dataset is exactly the four months 2000-03..2000-06. -/
theorem c1_monthly_resample_and_trim :
    (∀ (df : DataFrame) (m : Nat),
        monthsOrdered df.rows = true → monthHas m df.rows = true →
        ∃ r, (monthEnd m, r) ∈ (resampleM df).rows
          ∧ ∀ j : Nat, r.getD j none = lastObsCell m j df.rows)
    ∧ (∀ (df : DataFrame), ∀ x ∈ (resampleM df).rows, ∃ m, x.1 = monthEnd m)
    ∧ (∀ (s e : Nat) (df : DataFrame) (x : Nat × List Cell),
        x ∈ (trimTo s e df).rows ↔ x ∈ df.rows ∧ s ≤ x.1 ∧ x.1 ≤ e)
    ∧ (∀ (rp fd : RawFrame) (d : DataFrame) (pos : Positions)
        (pmin pmax fmin fmax : Nat),
        minDate rp.toFrame = some pmin → maxDate rp.toFrame = some pmax →
        minDate fd.toFrame = some fmin → maxDate fd.toFrame = some fmax →
        create_mrf_dataset rp fd = .ok (d, pos) →
        ∀ x ∈ d.rows, Nat.max pmin fmin ≤ x.1 ∧ x.1 ≤ Nat.min pmax fmax)
    ∧ (create_mrf_dataset fixP.toRaw fixF.toRaw).map (fun p => p.1.rows.map Prod.fst)
        = .ok [monthEnd (2000 * 12 + 2), monthEnd (2000 * 12 + 3),
               monthEnd (2000 * 12 + 4), monthEnd (2000 * 12 + 5)] := by
  refine ⟨?_, ?_, ?_, ?_, ?_⟩
  · intro df m hsort hhas
    rcases resampleRows_monthHas df.rows m hhas with ⟨r, hr⟩
    refine ⟨r, mem_gapFill _ _ _ hr, ?_⟩
    intro j
    have hc := resampleRows_cells_spec df.rows hsort (monthEnd m, r) hr j
    simpa [monthOf_monthEnd] using hc
  · intro df x hx
    exact gapFill_monthEnd _ _ (resampleRows_monthEnd df.rows) x hx
  · intro s e df x
    exact mem_trimTo
  · intro rp fd d pos pmin pmax fmin fmax h1 h2 h3 h4 h x hx
    rcases createCore_ok_inv (create_mrf_dataset_ok_inv h) with
      ⟨start, stop, target, xv, hcr, hs1, hs2, hd, hpos⟩
    rw [commonRange_eq h1 h2 h3 h4] at hcr
    cases hcr
    subst hd
    have hx2 := mem_dropna hx
    have hdd : x.1 ∈ (concat2 (concat2 target xv)
        (dropCol ("USREC") (trimTo (Nat.max pmin fmin) (Nat.min pmax fmax)
          (resampleM fd.toFrame)))).rows.map Prod.fst :=
      List.mem_map_of_mem Prod.fst hx2
    rw [concat2_dates, concat2_dates] at hdd
    rcases (mem_mergeDates _ _ _).mp hdd with hA | hC
    · rcases (mem_mergeDates _ _ _).mp hA with hT | hX
      · rw [select_ok_dates hs1] at hT
        exact dates_bound hT
      · rw [select_ok_dates hs2] at hX
        exact dates_bound hX
    · rw [dropCol_dates] at hC
      exact dates_bound hC
  · rfl

/-- Witness for C1: instances of each universally quantified conjunct on
the fixtures, with the hypotheses discharged concretely. -/
theorem c1_monthly_resample_and_trim_witness :
    (∃ r, (monthEnd (2000 * 12), r) ∈ (resampleM fixP).rows
       ∧ ∀ j : Nat, r.getD j none = lastObsCell (2000 * 12) j fixP.rows)
    ∧ (∃ m, (monthEnd (2000 * 12), fixPCells).1 = monthEnd m)
    ∧ ((monthEnd (2000 * 12 + 2), [some (1 : ℚ)])
        ∈ (trimTo (monthEnd (2000 * 12 + 2)) (monthEnd (2000 * 12 + 5))
            (resampleM fixF)).rows)
    ∧ (Nat.max (monthEnd (2000 * 12)) (monthEnd (2000 * 12 + 2)) ≤ fixOutRow.1
       ∧ fixOutRow.1 ≤ Nat.min (monthEnd (2000 * 12 + 5)) (monthEnd (2000 * 12 + 8))) :=
  have A := c1_monthly_resample_and_trim
  ⟨A.1 fixP (2000 * 12) (by decide) (by decide),
   A.2.1 fixP (monthEnd (2000 * 12), fixPCells) (by decide),
   (A.2.2.1 (monthEnd (2000 * 12 + 2)) (monthEnd (2000 * 12 + 5)) (resampleM fixF)
      (monthEnd (2000 * 12 + 2), [some (1 : ℚ)])).mpr
     ⟨by decide, by decide, by decide⟩,
   A.2.2.2.1 fixP.toRaw fixF.toRaw fixOut.1 fixOut.2 (monthEnd (2000 * 12))
     (monthEnd (2000 * 12 + 5)) (monthEnd (2000 * 12 + 2)) (monthEnd (2000 * 12 + 8))
     (by rfl) (by rfl) (by rfl) (by rfl) (by rfl) fixOutRow (by decide)⟩

theorem fetched_col_missing {fetch : String → Option Series} {nm : String}
    (h : ∀ p ∈ seriesList, p.2 = nm → fetch p.1 = none) :
    nm ∉ (dataFrameOfDict (fetchedSeries fetch)).cols := by
  intro hmem
  rcases mem_fetched_cols hmem with ⟨p, hp, hp2, hps⟩
  rw [h p hp hp2] at hps
  cases hps

/-- Claim C5: with a valid key, if any required base column
(treasury_10y, treasury_3m, baa_corporate_yield, aaa_corporate_yield) is
missing because its individual fetch failed, the derived-spread step of
`get_recession_predictors` fails with the KeyError (the spec's
MissingColumnError) instead of returning a table without the spread
columns. -/
theorem c5_missing_base_column (env : String → Option String) (k : String)
    (fetch : String → Option Series)
    (hk : env ("FRED_API_KEY") = some k) (hne : k.isEmpty = false)
    (hmiss : fetch ("DGS10") = none ∨ fetch ("DGS3MO") = none
      ∨ fetch ("BAAFFM") = none ∨ fetch ("AAAFFM") = none) :
    ∃ e, (get_recession_predictors env fetch).2 = .error e := by
  have hkey : get_fred_api_key env = .ok k := by
    unfold get_fred_api_key
    rw [hk]
    simp only []
    rw [if_neg (by rw [hne]; exact Bool.false_ne_true)]
  unfold get_recession_predictors
  rw [hkey]
  simp only []
  rcases hmiss with hm | hm | hm | hm
  · have hnot : ("treasury_10y") ∉ (dataFrameOfDict (fetchedSeries fetch)).cols := by
      apply fetched_col_missing
      intro p hp hp2
      simp only [seriesList, List.mem_cons, List.not_mem_nil, or_false] at hp
      rcases hp with rfl | rfl | rfl | rfl | rfl | rfl | rfl | rfl <;> simp_all
    unfold addSpreads
    rw [(colIdx?_eq_none_iff _ _).mpr hnot]
    exact ⟨_, rfl⟩
  · have hnot : ("treasury_3m") ∉ (dataFrameOfDict (fetchedSeries fetch)).cols := by
      apply fetched_col_missing
      intro p hp hp2
      simp only [seriesList, List.mem_cons, List.not_mem_nil, or_false] at hp
      rcases hp with rfl | rfl | rfl | rfl | rfl | rfl | rfl | rfl <;> simp_all
    unfold addSpreads
    rcases h10 : colIdx? ("treasury_10y") (dataFrameOfDict (fetchedSeries fetch)).cols
        with _ | i10
    · exact ⟨_, rfl⟩
    · rw [(colIdx?_eq_none_iff _ _).mpr hnot]
      exact ⟨_, rfl⟩
  · have hnot : ("baa_corporate_yield") ∉ (dataFrameOfDict (fetchedSeries fetch)).cols := by
      apply fetched_col_missing
      intro p hp hp2
      simp only [seriesList, List.mem_cons, List.not_mem_nil, or_false] at hp
      rcases hp with rfl | rfl | rfl | rfl | rfl | rfl | rfl | rfl <;> simp_all
    unfold addSpreads
    rcases h10 : colIdx? ("treasury_10y") (dataFrameOfDict (fetchedSeries fetch)).cols
        with _ | i10
    · exact ⟨_, rfl⟩
    · rcases h3 : colIdx? ("treasury_3m") (dataFrameOfDict (fetchedSeries fetch)).cols
          with _ | i3
      · exact ⟨_, rfl⟩
      · rw [(colIdx?_eq_none_iff _ _).mpr hnot]
        exact ⟨_, rfl⟩
  · have hnot : ("aaa_corporate_yield") ∉ (dataFrameOfDict (fetchedSeries fetch)).cols := by
      apply fetched_col_missing
      intro p hp hp2
      simp only [seriesList, List.mem_cons, List.not_mem_nil, or_false] at hp
      rcases hp with rfl | rfl | rfl | rfl | rfl | rfl | rfl | rfl <;> simp_all
    unfold addSpreads
    rcases h10 : colIdx? ("treasury_10y") (dataFrameOfDict (fetchedSeries fetch)).cols
        with _ | i10
    · exact ⟨_, rfl⟩
    · rcases h3 : colIdx? ("treasury_3m") (dataFrameOfDict (fetchedSeries fetch)).cols
          with _ | i3
      · exact ⟨_, rfl⟩
      · rcases hb : colIdx? ("baa_corporate_yield")
            (dataFrameOfDict (fetchedSeries fetch)).cols with _ | ibaa
        · exact ⟨_, rfl⟩
        · rw [(colIdx?_eq_none_iff _ _).mpr hnot]
          exact ⟨_, rfl⟩

/-- Witness for C5: a valid key with a failed DGS3MO download makes the
fetch stage fail. -/
theorem c5_missing_base_column_witness :
    ∃ e, (get_recession_predictors envOk fetchNo3m).2 = .error e :=
  c5_missing_base_column envOk ("test_key") fetchNo3m rfl rfl (Or.inr (Or.inl rfl))

theorem getD_append_fst (l l' : List Cell) (u : Cell) :
    (l ++ u :: l').getD l.length none = u := by
  induction l with
  | nil => rfl
  | cons c cs ih =>
    rw [List.cons_append]
    show (c :: (cs ++ u :: l')).getD (cs.length + 1) none = u
    rw [List.getD_cons_succ]
    exact ih

theorem getD_append_snd (l l' : List Cell) (u v : Cell) :
    (l ++ u :: v :: l').getD (l.length + 1) none = v := by
  induction l with
  | nil => rfl
  | cons c cs ih =>
    rw [List.cons_append]
    show (c :: (cs ++ u :: v :: l')).getD (cs.length + 1 + 1) none = v
    rw [List.getD_cons_succ]
    exact ih

theorem addSpreads_ok_inv {base df : DataFrame} (h : addSpreads base = .ok df) :
    ∃ (i10 i3 ibaa iaaa : Nat),
      colIdx? ("treasury_10y") base.cols = some i10
      ∧ colIdx? ("treasury_3m") base.cols = some i3
      ∧ colIdx? ("baa_corporate_yield") base.cols = some ibaa
      ∧ colIdx? ("aaa_corporate_yield") base.cols = some iaaa
      ∧ df = ⟨base.cols ++ ["yield_spread", "credit_spread"],
              base.rows.map (fun r => (r.1,
                r.2 ++ [subCell (r.2.getD i10 none) (r.2.getD i3 none),
                        subCell (r.2.getD ibaa none) (r.2.getD iaaa none)]))⟩ := by
  unfold addSpreads at h
  rcases h10 : colIdx? ("treasury_10y") base.cols with _ | i10
  · rw [h10] at h
    simp at h
  · rw [h10] at h
    rcases h3 : colIdx? ("treasury_3m") base.cols with _ | i3
    · rw [h3] at h
      simp at h
    · rw [h3] at h
      rcases hbaa : colIdx? ("baa_corporate_yield") base.cols with _ | ibaa
      · rw [hbaa] at h
        simp at h
      · rw [hbaa] at h
        rcases haaa : colIdx? ("aaa_corporate_yield") base.cols with _ | iaaa
        · rw [haaa] at h
          simp at h
        · rw [haaa] at h
          simp only [Except.ok.injEq] at h
          exact ⟨i10, i3, ibaa, iaaa, rfl, rfl, rfl, rfl, h.symm⟩

/-- Claim C7: in a predictor table successfully returned by
`get_recession_predictors`, each row's yield_spread value is exactly the
row's treasury_10y minus treasury_3m, and its credit_spread value is
exactly baa_corporate_yield minus aaa_corporate_yield; exactness implies
the claimed 1e-9 tolerance (values are modelled as exact rationals). -/
theorem c7_spread_columns (env : String → Option String)
    (fetch : String → Option Series) (df : DataFrame)
    (h : (get_recession_predictors env fetch).2 = .ok df) :
    ∀ r ∈ df.rows,
      (∀ a b : ℚ, getVal df ("treasury_10y") r.2 = some a →
        getVal df ("treasury_3m") r.2 = some b →
        getVal df ("yield_spread") r.2 = some (a - b)
        ∧ ∀ y : ℚ, getVal df ("yield_spread") r.2 = some y →
            |y - (a - b)| ≤ 1 / 1000000000)
      ∧ (∀ a b : ℚ, getVal df ("baa_corporate_yield") r.2 = some a →
        getVal df ("aaa_corporate_yield") r.2 = some b →
        getVal df ("credit_spread") r.2 = some (a - b)
        ∧ ∀ y : ℚ, getVal df ("credit_spread") r.2 = some y →
            |y - (a - b)| ≤ 1 / 1000000000) := by
  have hok : addSpreads (dataFrameOfDict (fetchedSeries fetch)) = .ok df := by
    unfold get_recession_predictors at h
    rcases hkey : get_fred_api_key env with e | k <;> rw [hkey] at h
    · simp at h
    · exact h
  rcases addSpreads_ok_inv hok with ⟨i10, i3, ibaa, iaaa, h10, h3, hbaa, haaa, hdf⟩
  have hWF : (dataFrameOfDict (fetchedSeries fetch)).WF := WF_dataFrameOfDict _
  have hys : ("yield_spread") ∉ (dataFrameOfDict (fetchedSeries fetch)).cols := by
    intro hx
    rcases mem_fetched_cols hx with ⟨p, hp, hp2, _⟩
    simp only [seriesList, List.mem_cons, List.not_mem_nil, or_false] at hp
    rcases hp with rfl | rfl | rfl | rfl | rfl | rfl | rfl | rfl <;> simp at hp2
  have hcs : ("credit_spread") ∉ (dataFrameOfDict (fetchedSeries fetch)).cols := by
    intro hx
    rcases mem_fetched_cols hx with ⟨p, hp, hp2, _⟩
    simp only [seriesList, List.mem_cons, List.not_mem_nil, or_false] at hp
    rcases hp with rfl | rfl | rfl | rfl | rfl | rfl | rfl | rfl <;> simp at hp2
  subst hdf
  intro r hr
  rcases List.mem_map.mp hr with ⟨r₀, hr₀, rfl⟩
  have hlen : r₀.2.length = (dataFrameOfDict (fetchedSeries fetch)).cols.length :=
    hWF r₀ hr₀
  have hcys : colIdx? ("yield_spread")
      ((dataFrameOfDict (fetchedSeries fetch)).cols ++ ["yield_spread", "credit_spread"])
      = some ((dataFrameOfDict (fetchedSeries fetch)).cols.length) := by
    rw [colIdx?_append_right hys]
    simp [colIdx?]
  have hccs : colIdx? ("credit_spread")
      ((dataFrameOfDict (fetchedSeries fetch)).cols ++ ["yield_spread", "credit_spread"])
      = some ((dataFrameOfDict (fetchedSeries fetch)).cols.length + 1) := by
    rw [colIdx?_append_right hcs]
    simp [colIdx?, Nat.add_comm]
  constructor
  · intro a b ha hb
    unfold getVal at ha hb
    rw [colIdx?_append_left h10 _] at ha
    rw [colIdx?_append_left h3 _] at hb
    simp only [] at ha hb
    rw [List.getD_append _ _ none _ (hlen ▸ colIdx?_lt_length h10)] at ha
    rw [List.getD_append _ _ none _ (hlen ▸ colIdx?_lt_length h3)] at hb
    have hyv : getVal
        ⟨(dataFrameOfDict (fetchedSeries fetch)).cols ++ ["yield_spread", "credit_spread"],
         (dataFrameOfDict (fetchedSeries fetch)).rows.map (fun r => (r.1,
           r.2 ++ [subCell (r.2.getD i10 none) (r.2.getD i3 none),
                   subCell (r.2.getD ibaa none) (r.2.getD iaaa none)]))⟩
        ("yield_spread")
        (r₀.2 ++ [subCell (r₀.2.getD i10 none) (r₀.2.getD i3 none),
                  subCell (r₀.2.getD ibaa none) (r₀.2.getD iaaa none)])
        = some (a - b) := by
      unfold getVal
      rw [hcys]
      simp only []
      rw [← hlen, getD_append_fst, ha, hb]
      rfl
    refine ⟨hyv, ?_⟩
    intro y hy
    rw [hyv] at hy
    cases hy
    rw [sub_self, abs_zero]
    norm_num
  · intro a b ha hb
    unfold getVal at ha hb
    rw [colIdx?_append_left hbaa _] at ha
    rw [colIdx?_append_left haaa _] at hb
    simp only [] at ha hb
    rw [List.getD_append _ _ none _ (hlen ▸ colIdx?_lt_length hbaa)] at ha
    rw [List.getD_append _ _ none _ (hlen ▸ colIdx?_lt_length haaa)] at hb
    have hcv : getVal
        ⟨(dataFrameOfDict (fetchedSeries fetch)).cols ++ ["yield_spread", "credit_spread"],
         (dataFrameOfDict (fetchedSeries fetch)).rows.map (fun r => (r.1,
           r.2 ++ [subCell (r.2.getD i10 none) (r.2.getD i3 none),
                   subCell (r.2.getD ibaa none) (r.2.getD iaaa none)]))⟩
        ("credit_spread")
        (r₀.2 ++ [subCell (r₀.2.getD i10 none) (r₀.2.getD i3 none),
                  subCell (r₀.2.getD ibaa none) (r₀.2.getD iaaa none)])
        = some (a - b) := by
      unfold getVal
      rw [hccs]
      simp only []
      rw [← hlen, getD_append_snd, ha, hb]
      rfl
    refine ⟨hcv, ?_⟩
    intro y hy
    rw [hcv] at hy
    cases hy
    rw [sub_self, abs_zero]
    norm_num

/-- Witness for C7: the all-success fetch fixture, whose first row has
treasury_10y 5, treasury_3m 3, baa 7, aaa 6. -/
theorem c7_spread_columns_witness :
    getVal fixPred ("yield_spread") fixPredRow.2 = some ((5 : ℚ) - 3)
    ∧ (∀ y : ℚ, getVal fixPred ("yield_spread") fixPredRow.2 = some y →
        |y - ((5 : ℚ) - 3)| ≤ 1 / 1000000000)
    ∧ getVal fixPred ("credit_spread") fixPredRow.2 = some ((7 : ℚ) - 6)
    ∧ (∀ y : ℚ, getVal fixPred ("credit_spread") fixPredRow.2 = some y →
        |y - ((7 : ℚ) - 6)| ≤ 1 / 1000000000) :=
  have A := c7_spread_columns envOk fetchAll fixPred (by rfl) fixPredRow
    (show fixPredRow ∈ fixPred.rows from List.mem_cons_self _ _)
  ⟨(A.1 5 3 (by rfl) (by rfl)).1, (A.1 5 3 (by rfl) (by rfl)).2,
   (A.2 7 6 (by rfl) (by rfl)).1, (A.2 7 6 (by rfl) (by rfl)).2⟩

end RecessionMRF
